import Mathlib

/-!
# Verification of the `mutter` transcription library core

Shallow embedding of the repository's pure core:

* `src/transcript.rs` — `Transcript`, `Utterance`, the renderers `as_text`,
  `as_vtt`, `as_srt`, and the helper `format_timestamp`;
* `src/transcode.rs` — `decode` (the external rodio/whisper-rs calls are
  abstracted as function parameters, the control flow is the source's);
* `src/lib.rs` — the segment/token post-processing loop of
  `Model::transcribe_pcm_s16le` and the byte-acquisition logic of
  `Model::download`.

Machine integers (`i64`) are modelled as `Int`; every value reaching the
arithmetic below is bounded far away from `i64` overflow in the claims
considered, so no wraparound modelling is needed.  Rust panics (`unwrap`,
`assert!`) are modelled explicitly: functions that can panic return `Option`
or a dedicated outcome type with a `panicked` constructor.
-/

set_option autoImplicit false

namespace Mutter

/-! ## Decimal rendering (embedding of Rust's `{:0w}` integer formatting)

Rust's `format!("{n:02}")` renders `n` in decimal and left-pads with `'0'`
to a *minimum* width; wider values are never truncated.  `decReprAux` is a
fuel-based structural recursion so that the kernel can evaluate it. -/

def decReprAux (fuel : Nat) (n : Nat) : List Char :=
  match fuel with
  | 0 => []
  | fuel + 1 =>
    if n < 10 then [Nat.digitChar n]
    else decReprAux fuel (n / 10) ++ [Nat.digitChar (n % 10)]

/-- Decimal digit string of a natural number, most-significant digit first. -/
def decRepr (n : Nat) : List Char := decReprAux (n + 1) n

/-- Embedding of Rust `format!("{n:0w}")` for a non-negative value:
decimal digits, zero-padded on the left to minimum width `w`. -/
def padNat (w : Nat) (n : Nat) : List Char :=
  List.replicate (w - (decRepr n).length) '0' ++ decRepr n

/-! ## `format_timestamp` (src/transcript.rs lines 88–108)

```rust
fn format_timestamp(num: i64, always_include_hours: bool, decimal_marker: &str) -> String {
    assert!(num >= 0, "non-negative timestamp expected");
    let mut milliseconds: i64 = num * 10;
    let hours = div_floor(milliseconds, 3_600_000);
    milliseconds -= hours * 3_600_000;
    let minutes = div_floor(milliseconds, 60_000);
    milliseconds -= minutes * 60_000;
    let seconds = div_floor(milliseconds, 1_000);
    milliseconds -= seconds * 1_000;
    let hours_marker = if always_include_hours || hours != 0 {
        format!("{hours:02}:")
    } else { String::new() };
    format!("{hours_marker}{minutes:02}:{seconds:02}{decimal_marker}{milliseconds:03}")
}
```

The failed assertion (a Rust panic) is modelled as `none`.  After the
assertion `num ≥ 0`, so `div_floor` on the non-negative `i64` values agrees
with natural-number division and the `-=` steps stay non-negative; the body
is therefore computed on `num.toNat`. -/

def format_timestamp (num : Int) (always_include_hours : Bool)
    (decimal_marker : String) : Option String :=
  if num < 0 then none
  else
    let ms0 : Nat := num.toNat * 10
    let hours : Nat := ms0 / 3600000
    let ms1 : Nat := ms0 - hours * 3600000
    let minutes : Nat := ms1 / 60000
    let ms2 : Nat := ms1 - minutes * 60000
    let seconds : Nat := ms2 / 1000
    let ms3 : Nat := ms2 - seconds * 1000
    let hours_marker : List Char :=
      if always_include_hours || hours != 0 then padNat 2 hours ++ [':'] else []
    some (String.mk (hours_marker ++ padNat 2 minutes ++ [':'] ++ padNat 2 seconds
      ++ decimal_marker.data ++ padNat 3 ms3))

/-! ## String sanitisation helpers used by the renderers

`rustTrim` embeds Rust's `str::trim` (drop whitespace from both ends; the
texts involved use ASCII whitespace, where `Char.isWhitespace` agrees with
Unicode `White_Space`).  `replaceAux` embeds Rust's `str::replace` for a
non-empty pattern: scan left to right, replace each non-overlapping
occurrence, resume after the inserted replacement.  It is fuel-based so the
kernel can evaluate it; `fuel ≥ length of the list` makes it total. -/

def rustTrim (s : String) : String :=
  String.mk (((s.data.dropWhile Char.isWhitespace).reverse.dropWhile
    Char.isWhitespace).reverse)

def replaceAux (pat rep : List Char) : Nat → List Char → List Char
  | 0, l => l
  | fuel + 1, l =>
    match l with
    | [] => []
    | c :: rest =>
      if pat.isPrefixOf (c :: rest) && !pat.isEmpty then
        rep ++ replaceAux pat rep fuel (List.drop pat.length (c :: rest))
      else
        c :: replaceAux pat rep fuel rest

/-- Embedding of Rust `str::replace(pat, rep)` (non-empty `pat`). -/
def rustReplace (s pat rep : String) : String :=
  String.mk (replaceAux pat.data rep.data s.data.length s.data)

/-- Embedding of `fragment.text.trim().replace("-->", "->")`, the text transformation
both `as_vtt` and `as_srt` apply to an utterance's text. -/
def sanitize (text : String) : String :=
  rustReplace (rustTrim text) "-->" "->"

/-- Decidable "contains `pat` as a contiguous substring" on character
lists (used to state the sanitisation claims). -/
def containsSub (pat : List Char) : List Char → Bool
  | [] => pat.isEmpty
  | c :: rest => pat.isPrefixOf (c :: rest) || containsSub pat rest

/-- Embedding of Rust `str::starts_with(pat)`. -/
def rustStartsWith (s pat : String) : Bool :=
  pat.data.isPrefixOf s.data

/-- Embedding of Rust `str::parse::<usize>()` on the decimal strings that
occur as `Content-Length` values: all-digit non-empty strings parse to
their value, everything else is an error (`none`).  (Rust also accepts one
leading `'+'` and errors on `usize` overflow; neither case matters here.) -/
def parseNatAux : List Char → Nat → Option Nat
  | [], acc => some acc
  | c :: rest, acc =>
    if c.isDigit then parseNatAux rest (acc * 10 + (c.toNat - 48)) else none

def parseNat (s : String) : Option Nat :=
  match s.data with
  | [] => none
  | l => parseNatAux l 0

/-! ## Transcript data model and renderers (src/transcript.rs)

`Utterance.start`/`stop` are the engine's `i64` centisecond timestamps.
`processing_time` (a `std::time::Duration`) is environmental wall-clock
data never inspected by the renderers; it is carried as a `Nat` so the
structure mirrors the Rust one. -/

structure Utterance where
  start : Int
  stop : Int
  text : String
  deriving Repr, DecidableEq

structure Transcript where
  processing_time : Nat
  utterances : List Utterance
  word_utterances : Option (List Utterance)
  deriving Repr, DecidableEq

/-- Embedding of `Transcript::as_text`: fold appending `trim(text)` + newline. -/
def Transcript.as_text (t : Transcript) : String :=
  t.utterances.foldl (fun transcript fragment =>
    transcript ++ rustTrim fragment.text ++ "\n") ""

/-- Embedding of `Transcript::as_vtt`.  `format_timestamp` panics on a negative
timestamp, so the rendering is `Option`-valued: `none` models the panic. -/
def Transcript.as_vtt (t : Transcript) : Option String := do
  let vtt ← t.utterances.foldlM (fun (transcript : String) fragment => do
    let s ← format_timestamp fragment.start true "."
    let e ← format_timestamp fragment.stop true "."
    pure (transcript ++ s ++ " --> " ++ e ++ "\n" ++ sanitize fragment.text ++ "\n\n")) ""
  pure ("WEBVTT\n" ++ vtt)

/-- Embedding of `Transcript::as_srt`: fold with a numeric index starting at 1. -/
def Transcript.as_srt (t : Transcript) : Option String := do
  let p ← t.utterances.foldlM (fun (p : Nat × String) fragment => do
    let s ← format_timestamp fragment.start true ","
    let e ← format_timestamp fragment.stop true ","
    pure (p.1 + 1, p.2 ++ String.mk (decRepr p.1) ++ "\n" ++ s ++ " --> " ++ e
      ++ "\n" ++ sanitize fragment.text ++ "\n")) (1, "")
  pure p.2

/-! ## Error type (src/lib.rs `ModelError`)

The payloads of the first three variants (a `WhisperError`, a boxed
`ureq::Error`, a `std::io::Error`) are opaque external values; they are
irrelevant to the claims and dropped. -/

inductive ModelError where
  | whisperError
  | downloadError
  | ioError
  | audioDecodeError
  deriving Repr, DecidableEq

/-! ## `transcode::decode` (src/transcode.rs lines 7–21)

```rust
pub fn decode(bytes: Vec<u8>) -> Result<Vec<f32>, ModelError> {
    let input = Cursor::new(bytes);
    let source = Decoder::new(input).unwrap();
    ...
    let samples: Vec<i16> = pass_filter.collect::<Vec<i16>>();
    let mut output: Vec<f32> = vec![0.0f32; samples.len()];
    let result = whisper_rs::convert_integer_to_float_audio(&samples, &mut output);
    result.map(|()| output).map_err(ModelError::WhisperError)
}
```

The three external collaborators are abstracted as parameters:
`decoderNew` models `rodio::Decoder::new` (`none` = the backend does not
recognise/parse the byte buffer, i.e. `Decoder::new` returns `Err`);
`pipeline` models the resample/low-pass/high-pass/collect chain, a total
transformation of the decoded source into `i16` samples; `convert` models
`whisper_rs::convert_integer_to_float_audio`, which may fail with a
`WhisperError`.  Only the control flow below is this repository's code.
The `.unwrap()` on `Decoder::new` is a Rust panic on `Err`, modelled by
the `panicked` outcome. -/

inductive DecodeOutcome (α : Type) where
  | panicked
  | err (e : ModelError)
  | ok (samples : α)
  deriving Repr, DecidableEq

def decode {σ ω : Type} (decoderNew : List Nat → Option σ)
    (pipeline : σ → List Int) (convert : List Int → Except Unit ω)
    (bytes : List Nat) : DecodeOutcome ω :=
  match decoderNew bytes with
  | none => .panicked
  | some source =>
    let samples : List Int := pipeline source
    match convert samples with
    | .error _ => .err .whisperError
    | .ok output => .ok output

/-! ## `Model::download` byte acquisition (src/lib.rs lines 120–146)

```rust
let resp = ureq::get(&model.to_string()).call()
    .map_err(|e| ModelError::DownloadError(Box::new(e)))?;
assert!(resp.has("Content-Length"));
let len: usize = resp.header("Content-Length").unwrap().parse().unwrap_or_default();
let mut bytes: Vec<u8> = Vec::with_capacity(len);
resp.into_reader().read_to_end(&mut bytes).map_err(ModelError::IoError)?;
assert_eq!(bytes.len(), len);
```

The HTTP layer is external: the embedding takes the response's
`Content-Length` header (absent = `none`) and the result of reading the
body to its end (`Except` for the I/O error).  `parse::<usize>()` on the
header string is modelled by `String.toNat?` and `unwrap_or_default()` by
`Option.getD 0`.  A failed `assert!`/`assert_eq!` is a panic.  The
subsequent `WhisperContext::new_from_buffer_with_params` call is external
model loading; the outcome carries the acquired byte buffer. -/

inductive DownloadOutcome where
  | panicked
  | err (e : ModelError)
  | ok (bytes : List Nat)
  deriving Repr, DecidableEq

def download (contentLength : Option String)
    (body : Except Unit (List Nat)) : DownloadOutcome :=
  match contentLength with
  | none => .panicked
  | some header =>
    let len : Nat := (parseNat header).getD 0
    match body with
    | .error _ => .err .ioError
    | .ok bytes => if bytes.length = len then .ok bytes else .panicked

/-! ## `Model::transcribe_pcm_s16le` post-processing (src/lib.rs lines 246–305)

The whisper engine's raw output is modelled as data: per segment the text
and the `t0`/`t1` centisecond timestamps, plus the token list (token text
and its `WhisperTokenData` timestamps).  The loop below is the source's:

```rust
for segment_idx in 0..num_segments {
    let text = state.full_get_segment_text(segment_idx)?;
    let start = state.full_get_segment_t0(segment_idx)?;
    let stop = state.full_get_segment_t1(segment_idx)?;
    utterances.push(Utterance { start, stop, text });
    if !word_timestamps { continue; }
    for t in 0..num_tokens {
        let text = state.full_get_token_text(segment_idx, t)?;
        let token_data = state.full_get_token_data(segment_idx, t)?;
        if text.starts_with("[_") { continue; }
        words.push(Utterance { text, start: token_data.t0, stop: token_data.t1 });
    }
}
Ok(Transcript { utterances, processing_time, word_utterances:
    if word_timestamps { Some(words) } else { None } })
```

The accessor calls' error paths abort the whole call with a `ModelError`
before any `Transcript` is built; the claims concern the successful path,
so the raw output is given as already-extracted data.  `elapsed` models
the wall-clock `processing_time` measurement. -/

structure RawToken where
  text : String
  t0 : Int
  t1 : Int
  deriving Repr, DecidableEq

structure RawSegment where
  text : String
  t0 : Int
  t1 : Int
  tokens : List RawToken
  deriving Repr, DecidableEq

/-- The inner token loop: push each token as an `Utterance`, skipping
tokens whose text starts with `"[_"` (the `continue`). -/
def pushTokens (words : List Utterance) (tokens : List RawToken) : List Utterance :=
  tokens.foldl (fun words tk =>
    if rustStartsWith tk.text "[_" then words
    else words ++ [⟨tk.t0, tk.t1, tk.text⟩]) words

/-- One iteration of the segment loop: push the segment utterance; if word
timestamps were not requested, `continue`, else run the token loop. -/
def transcribeStep (word_timestamps : Bool) (acc : List Utterance × List Utterance)
    (segment : RawSegment) : List Utterance × List Utterance :=
  let utterances := acc.1 ++ [⟨segment.t0, segment.t1, segment.text⟩]
  if !word_timestamps then
    (utterances, acc.2)
  else
    (utterances, pushTokens acc.2 segment.tokens)

def transcribe_pcm_s16le (segments : List RawSegment) (word_timestamps : Bool)
    (elapsed : Nat) : Transcript :=
  let acc := segments.foldl (transcribeStep word_timestamps) ([], [])
  { processing_time := elapsed
    utterances := acc.1
    word_utterances := if word_timestamps then some acc.2 else none }

/-! ## The floor-division cascade of `format_timestamp`, named

These are the source's `hours`/`minutes`/`seconds`/`milliseconds`
let-bindings (including the `-=` remainder steps) as functions of the
non-negative input, so that theorems can speak about the components. -/

def tsHours (n : Nat) : Nat := n * 10 / 3600000

def tsRem1 (n : Nat) : Nat := n * 10 - tsHours n * 3600000

def tsMinutes (n : Nat) : Nat := tsRem1 n / 60000

def tsRem2 (n : Nat) : Nat := tsRem1 n - tsMinutes n * 60000

def tsSeconds (n : Nat) : Nat := tsRem2 n / 1000

def tsMillis (n : Nat) : Nat := tsRem2 n - tsSeconds n * 1000

/-- The character list `format_timestamp` produces once the assertion has
passed (`format_timestamp_eq` below ties it to `format_timestamp`). -/
def formatTs (n : Nat) (always_include_hours : Bool) (marker : String) : List Char :=
  (if always_include_hours || tsHours n != 0 then padNat 2 (tsHours n) ++ [':'] else [])
    ++ padNat 2 (tsMinutes n) ++ [':'] ++ padNat 2 (tsSeconds n)
    ++ marker.data ++ padNat 3 (tsMillis n)

/-- The fixed `HH:MM:SS<marker>mmm` shape of §8 of the spec: exactly two
digits, a colon, two digits, a colon, two digits, the decimal marker, and
three digits. -/
def matchesHHMMSSmmm (marker : Char) (s : String) : Bool :=
  match s.data with
  | [h₁, h₂, c₁, m₁, m₂, c₂, s₁, s₂, d, x₁, x₂, x₃] =>
    h₁.isDigit && h₂.isDigit && (c₁ == ':') && m₁.isDigit && m₂.isDigit && (c₂ == ':')
      && s₁.isDigit && s₂.isDigit && (d == marker) && x₁.isDigit && x₂.isDigit && x₃.isDigit
  | _ => false

/-! ## Per-utterance building blocks of the renderings

`vttBlock`/`srtBlock` are the strings one `fold` step appends for one
utterance (after its timestamps passed the assertion); `strJoin`
concatenates them.  The fold lemmas below restate the renderers as joins
of per-utterance blocks. -/

def vttBlock (u : Utterance) : String :=
  String.mk (formatTs u.start.toNat true ".") ++ " --> "
    ++ String.mk (formatTs u.stop.toNat true ".") ++ "\n" ++ sanitize u.text ++ "\n\n"

def srtBlock (u : Utterance) : String :=
  String.mk (formatTs u.start.toNat true ",") ++ " --> "
    ++ String.mk (formatTs u.stop.toNat true ",") ++ "\n" ++ sanitize u.text ++ "\n"

def strJoin : List String → String
  | [] => ""
  | s :: rest => s ++ strJoin rest

/-- The input invariant of §4.4: all utterance timestamps non-negative. -/
def nonnegTimestamps (t : Transcript) : Prop :=
  ∀ u ∈ t.utterances, 0 ≤ u.start ∧ 0 ≤ u.stop

/-! ## Evaluation checks on concrete inputs -/

example : format_timestamp 100 true "." = some "00:00:01.000" := by decide

example : format_timestamp 100 true "," = some "00:00:01,000" := by decide

example : format_timestamp 100 false "." = some "00:01.000" := by decide

example : format_timestamp 36000000 true "." = some "100:00:00.000" := by decide

example : format_timestamp (-1) true "." = none := by decide

example : sanitize " a --> b " = "a -> b" := by decide

example : sanitize "x --> y --> z" = "x -> y -> z" := by decide

example : sanitize "--->" = "-->" := by decide

example : containsSub "-->".data (sanitize "--->").data = true := by decide

example :
    Transcript.as_srt ⟨0, [⟨0, 150, " hello world "⟩], none⟩
      = some "1\n00:00:00,000 --> 00:00:01,500\nhello world\n" := by decide

example :
    Transcript.as_vtt ⟨0, [⟨0, 150, " hello world "⟩], none⟩
      = some "WEBVTT\n00:00:00.000 --> 00:00:01.500\nhello world\n\n" := by decide

example :
    Transcript.as_text ⟨0, [⟨0, 150, " hello world "⟩], none⟩ = "hello world\n" := by
  decide

example : download none (.ok [1, 2, 3]) = .panicked := by decide

example : download (some "3") (.ok [1, 2, 3]) = .ok [1, 2, 3] := by decide

example : download (some "5") (.ok [1, 2, 3]) = .panicked := by decide

example : download (some "junk") (.ok []) = .ok [] := by decide

example :
    (transcribe_pcm_s16le
      [⟨"hi there", 0, 50, [⟨"hi", 0, 20⟩, ⟨"[_BEG_]", 20, 20⟩, ⟨"there", 20, 50⟩]⟩]
      true 0).word_utterances = some [⟨0, 20, "hi"⟩, ⟨20, 50, "there"⟩] := by decide

example :
    (transcribe_pcm_s16le
      [⟨"hi there", 0, 50, [⟨"hi", 0, 20⟩, ⟨"[_BEG_]", 20, 20⟩]⟩]
      false 7).word_utterances = none := by decide

theorem format_timestamp_eq (num : Int) (inc : Bool) (marker : String) (h : 0 ≤ num) :
    format_timestamp num inc marker = some (String.mk (formatTs num.toNat inc marker)) := by
  unfold format_timestamp formatTs tsMillis tsSeconds tsRem2 tsMinutes tsRem1 tsHours
  rw [if_neg (by omega)]

theorem tsMinutes_lt (n : Nat) : tsMinutes n < 60 := by
  unfold tsMinutes tsRem1 tsHours; omega

theorem tsSeconds_lt (n : Nat) : tsSeconds n < 60 := by
  unfold tsSeconds tsRem2 tsMinutes tsRem1 tsHours; omega

theorem tsMillis_lt (n : Nat) : tsMillis n < 1000 := by
  unfold tsMillis tsSeconds tsRem2 tsMinutes tsRem1 tsHours; omega

theorem tsHours_lt_of_lt (n : Nat) (h : n < 36000000) : tsHours n < 100 := by
  unfold tsHours; omega

theorem tsHours_ge_of_ge (n : Nat) (h : 36000000 ≤ n) : 100 ≤ tsHours n := by
  unfold tsHours; omega

/-! ## Lemmas about the decimal rendering and padding -/

theorem decReprAux_congr : ∀ f₁ : Nat, ∀ f₂ n : Nat, n < f₁ → n < f₂ →
    decReprAux f₁ n = decReprAux f₂ n := by
  intro f₁
  induction f₁ with
  | zero => intro f₂ n h₁ _; omega
  | succ f ih =>
    intro f₂ n h₁ h₂
    match f₂, h₂ with
    | f₂ + 1, h₂ =>
      show decReprAux (f + 1) n = decReprAux (f₂ + 1) n
      unfold decReprAux
      split
      · rfl
      · rw [ih f₂ (n / 10) (by omega) (by omega)]

theorem decRepr_eq (n : Nat) :
    decRepr n = if n < 10 then [Nat.digitChar n]
      else decRepr (n / 10) ++ [Nat.digitChar (n % 10)] := by
  unfold decRepr
  rw [show decReprAux (n + 1) n
      = if n < 10 then [Nat.digitChar n] else decReprAux n (n / 10) ++ [Nat.digitChar (n % 10)]
    from rfl]
  split
  · rfl
  · rw [decReprAux_congr n (n / 10 + 1) (n / 10) (by omega) (by omega)]

theorem digitChar_isDigit {d : Nat} (h : d < 10) : (Nat.digitChar d).isDigit = true := by
  interval_cases d <;> decide

theorem decRepr_isDigit (n : Nat) : ∀ c ∈ decRepr n, c.isDigit = true := by
  induction n using Nat.strong_induction_on with
  | _ n ih =>
    rw [decRepr_eq]
    split
    · intro c hc
      rw [List.mem_singleton] at hc
      subst hc
      exact digitChar_isDigit (by omega)
    · intro c hc
      rw [List.mem_append] at hc
      rcases hc with hc | hc
      · exact ih (n / 10) (by omega) c hc
      · rw [List.mem_singleton] at hc
        subst hc
        exact digitChar_isDigit (by omega)

theorem decRepr_length_pos (n : Nat) : 1 ≤ (decRepr n).length := by
  rw [decRepr_eq]
  split <;> simp

theorem decRepr_length_le_two (n : Nat) (h : n < 100) : (decRepr n).length ≤ 2 := by
  rw [decRepr_eq]
  split
  · simp
  · rw [decRepr_eq, if_pos (by omega)]
    simp

theorem decRepr_length_le_three (n : Nat) (h : n < 1000) : (decRepr n).length ≤ 3 := by
  rw [decRepr_eq]
  split
  · simp
  · have := decRepr_length_le_two (n / 10) (by omega)
    simp
    omega

theorem decRepr_length_ge_two (n : Nat) (h : 10 ≤ n) : 2 ≤ (decRepr n).length := by
  rw [decRepr_eq, if_neg (by omega)]
  have := decRepr_length_pos (n / 10)
  simp
  omega

theorem decRepr_length_ge_three (n : Nat) (h : 100 ≤ n) : 3 ≤ (decRepr n).length := by
  rw [decRepr_eq, if_neg (by omega)]
  have := decRepr_length_ge_two (n / 10) (by omega)
  simp
  omega

theorem padNat_length (w n : Nat) : (padNat w n).length = max w (decRepr n).length := by
  unfold padNat
  have := decRepr_length_pos n
  simp
  omega

theorem padNat_of_two_le (n : Nat) (h : 2 ≤ (decRepr n).length) :
    padNat 2 n = decRepr n := by
  unfold padNat
  rw [show 2 - (decRepr n).length = 0 by omega]
  simp

theorem padNat_two_spec (n : Nat) (h : n < 100) :
    ∃ a b, padNat 2 n = [a, b] ∧ a.isDigit = true ∧ b.isDigit = true := by
  have hle := decRepr_length_le_two n h
  have hge := decRepr_length_pos n
  have hdig := decRepr_isDigit n
  unfold padNat
  interval_cases hl : (decRepr n).length
  · rcases List.length_eq_one.mp hl with ⟨a, ha⟩
    refine ⟨'0', a, ?_, by decide, ?_⟩
    · rw [ha]; rfl
    · exact hdig a (by rw [ha]; exact List.mem_singleton_self a)
  · rcases List.length_eq_two.mp hl with ⟨a, b, hab⟩
    refine ⟨a, b, ?_, ?_, ?_⟩
    · rw [hab]; rfl
    · exact hdig a (by rw [hab]; simp)
    · exact hdig b (by rw [hab]; simp)

theorem matchesHHMMSSmmm_length {marker : Char} {s : String}
    (h : matchesHHMMSSmmm marker s = true) : s.data.length = 12 := by
  unfold matchesHHMMSSmmm at h
  split at h <;> simp_all

theorem padNat_three_spec (n : Nat) (h : n < 1000) :
    ∃ a b c, padNat 3 n = [a, b, c] ∧ a.isDigit = true ∧ b.isDigit = true
      ∧ c.isDigit = true := by
  have hle := decRepr_length_le_three n h
  have hge := decRepr_length_pos n
  have hdig := decRepr_isDigit n
  unfold padNat
  interval_cases hl : (decRepr n).length
  · rcases List.length_eq_one.mp hl with ⟨a, ha⟩
    refine ⟨'0', '0', a, ?_, by decide, by decide, ?_⟩
    · rw [ha]; rfl
    · exact hdig a (by rw [ha]; exact List.mem_singleton_self a)
  · rcases List.length_eq_two.mp hl with ⟨a, b, hab⟩
    refine ⟨'0', a, b, ?_, by decide, ?_, ?_⟩
    · rw [hab]; rfl
    · exact hdig a (by rw [hab]; simp)
    · exact hdig b (by rw [hab]; simp)
  · rcases List.length_eq_three.mp hl with ⟨a, b, c, habc⟩
    refine ⟨a, b, c, ?_, ?_, ?_, ?_⟩
    · rw [habc]; rfl
    · exact hdig a (by rw [habc]; simp)
    · exact hdig b (by rw [habc]; simp)
    · exact hdig c (by rw [habc]; simp)

theorem as_text_fold (l : List Utterance) (acc : String) :
    l.foldl (fun transcript fragment => transcript ++ rustTrim fragment.text ++ "\n") acc
      = acc ++ strJoin (l.map (fun u => rustTrim u.text ++ "\n")) := by
  induction l generalizing acc with
  | nil => simp [strJoin]
  | cons u rest ih =>
    rw [List.foldl_cons, ih]
    simp [strJoin, String.append_assoc]

theorem as_text_eq (t : Transcript) :
    t.as_text = strJoin (t.utterances.map (fun u => rustTrim u.text ++ "\n")) := by
  unfold Transcript.as_text
  rw [as_text_fold]
  simp

theorem as_vtt_fold (l : List Utterance) (acc : String)
    (h : ∀ u ∈ l, 0 ≤ u.start ∧ 0 ≤ u.stop) :
    List.foldlM (fun (transcript : String) fragment => do
      let s ← format_timestamp fragment.start true "."
      let e ← format_timestamp fragment.stop true "."
      pure (transcript ++ s ++ " --> " ++ e ++ "\n" ++ sanitize fragment.text ++ "\n\n"))
      acc l
      = some (acc ++ strJoin (l.map vttBlock)) := by
  induction l generalizing acc with
  | nil => simp [strJoin]
  | cons u rest ih =>
    obtain ⟨hs, he⟩ := h u (List.mem_cons_self u rest)
    rw [List.foldlM_cons, format_timestamp_eq _ _ _ hs, format_timestamp_eq _ _ _ he]
    show List.foldlM _ _ rest = _
    rw [ih _ (fun v hv => h v (List.mem_cons_of_mem u hv))]
    simp [strJoin, vttBlock, String.append_assoc]

theorem as_vtt_eq (t : Transcript) (h : nonnegTimestamps t) :
    t.as_vtt = some ("WEBVTT\n" ++ strJoin (t.utterances.map vttBlock)) := by
  unfold Transcript.as_vtt
  rw [as_vtt_fold _ _ h]
  simp

theorem as_srt_fold (l : List Utterance) (k : Nat) (acc : String)
    (h : ∀ u ∈ l, 0 ≤ u.start ∧ 0 ≤ u.stop) :
    List.foldlM (fun (p : Nat × String) fragment => do
      let s ← format_timestamp fragment.start true ","
      let e ← format_timestamp fragment.stop true ","
      pure (p.1 + 1, p.2 ++ String.mk (decRepr p.1) ++ "\n" ++ s ++ " --> " ++ e
        ++ "\n" ++ sanitize fragment.text ++ "\n")) (k, acc) l
      = some (k + l.length, acc ++ strJoin (((List.range' k l.length).zip l).map
          (fun p => String.mk (decRepr p.1) ++ "\n" ++ srtBlock p.2))) := by
  induction l generalizing k acc with
  | nil => simp [strJoin]
  | cons u rest ih =>
    obtain ⟨hs, he⟩ := h u (List.mem_cons_self u rest)
    rw [List.foldlM_cons, format_timestamp_eq _ _ _ hs, format_timestamp_eq _ _ _ he]
    show List.foldlM _ _ rest = _
    rw [ih (k + 1) _ (fun v hv => h v (List.mem_cons_of_mem u hv))]
    simp only [Option.some.injEq, Prod.mk.injEq, List.length_cons, List.range'_succ,
      List.zip_cons_cons, List.map_cons, strJoin]
    refine ⟨by omega, ?_⟩
    simp [srtBlock, String.append_assoc, List.zip]

theorem as_srt_eq (t : Transcript) (h : nonnegTimestamps t) :
    t.as_srt = some (strJoin (((List.range' 1 t.utterances.length).zip t.utterances).map
      (fun p => String.mk (decRepr p.1) ++ "\n" ++ srtBlock p.2))) := by
  unfold Transcript.as_srt
  rw [as_srt_fold _ _ _ h]
  simp

/-! ## Combinatorics of `replace("-->", "->")`

`replaceAux_of_not_contains`: on a string without the pattern, replace is
the identity.  `replaceAux_no_arrow`: the replaced string contains no
`"-->"` unless the input contains `"--->"` (the one way a replacement can
juxtapose a leftover `'-'` with the inserted `"->"`). -/

theorem containsSub_tail {pat : List Char} {c : Char} {rest : List Char}
    (h : containsSub pat (c :: rest) = false) : containsSub pat rest = false := by
  unfold containsSub at h
  exact (Bool.or_eq_false_iff.mp h).2

theorem containsSub_head {pat : List Char} {c : Char} {rest : List Char}
    (h : containsSub pat (c :: rest) = false) :
    pat.isPrefixOf (c :: rest) = false := by
  unfold containsSub at h
  exact (Bool.or_eq_false_iff.mp h).1

theorem replaceAux_of_not_contains (pat rep : List Char) :
    ∀ fuel : Nat, ∀ l : List Char, containsSub pat l = false →
      replaceAux pat rep fuel l = l := by
  intro fuel
  induction fuel with
  | zero => intro l _; rfl
  | succ fuel ih =>
    intro l hl
    match l with
    | [] => rfl
    | c :: rest =>
      simp only [replaceAux]
      rw [containsSub_head hl]
      simp [ih rest (containsSub_tail hl)]

theorem replaceAux_head_gt (fuel : Nat) (l r : List Char)
    (h : replaceAux ['-', '-', '>'] ['-', '>'] fuel l = '>' :: r) :
    ∃ s, l = '>' :: s := by
  match fuel, l with
  | 0, l => exact ⟨r, h⟩
  | fuel + 1, [] => simp [replaceAux] at h
  | fuel + 1, c :: rest =>
    simp only [replaceAux] at h
    by_cases hp : List.isPrefixOf ['-', '-', '>'] (c :: rest) = true
    · rw [if_pos (by simp [hp])] at h
      simp only [List.cons_append, List.nil_append] at h
      injection h with h₁ _
      exact absurd h₁ (by decide)
    · rw [if_neg (by simp [hp])] at h
      injection h with h₁ _
      exact ⟨rest, by rw [h₁]⟩

theorem replaceAux_head_pair (fuel : Nat) (l r : List Char)
    (h : replaceAux ['-', '-', '>'] ['-', '>'] fuel l = '-' :: '>' :: r) :
    List.isPrefixOf ['-', '-', '>'] l = true ∨ ∃ s, l = '-' :: '>' :: s := by
  match fuel, l with
  | 0, l => exact Or.inr ⟨r, h⟩
  | fuel + 1, [] => simp [replaceAux] at h
  | fuel + 1, c :: rest =>
    simp only [replaceAux] at h
    by_cases hp : List.isPrefixOf ['-', '-', '>'] (c :: rest) = true
    · exact Or.inl hp
    · rw [if_neg (by simp [hp])] at h
      injection h with h₁ h₂
      obtain ⟨s, hs⟩ := replaceAux_head_gt fuel rest r h₂
      exact Or.inr ⟨s, by rw [h₁, hs]⟩

theorem replaceAux_no_arrow : ∀ fuel : Nat, ∀ l : List Char, l.length ≤ fuel →
    containsSub ['-', '-', '-', '>'] l = false →
    containsSub ['-', '-', '>'] (replaceAux ['-', '-', '>'] ['-', '>'] fuel l) = false := by
  intro fuel
  induction fuel with
  | zero =>
    intro l hlen _
    have hnil : l = [] := List.eq_nil_of_length_eq_zero (by omega)
    subst hnil
    rfl
  | succ fuel ih =>
    intro l hlen h4
    match l with
    | [] => rfl
    | c :: rest =>
      simp only [replaceAux]
      by_cases hp : List.isPrefixOf ['-', '-', '>'] (c :: rest) = true
      · rw [if_pos (by simp [hp])]
        rw [List.isPrefixOf_iff_prefix] at hp
        obtain ⟨tail, htail⟩ := hp
        simp only [List.cons_append, List.nil_append] at htail
        injection htail with hc hrest
        subst hc
        subst hrest
        have hdrop : List.drop (List.length ['-', '-', '>'])
            ('-' :: '-' :: '>' :: tail) = tail := rfl
        rw [hdrop]
        have htail4 : containsSub ['-', '-', '-', '>'] tail = false :=
          containsSub_tail (containsSub_tail (containsSub_tail h4))
        have hR := ih tail (by simp at hlen; omega) htail4
        have e₁ : (('-' : Char) == '>') = false := by decide
        show containsSub ['-', '-', '>']
          ('-' :: '>' :: replaceAux ['-', '-', '>'] ['-', '>'] fuel tail) = false
        simp only [containsSub]
        rw [hR]
        simp [List.isPrefixOf, e₁]
      · rw [if_neg (by simp [hp])]
        have hR := ih rest (by simp at hlen; omega) (containsSub_tail h4)
        have hfirst : List.isPrefixOf ['-', '-', '>']
            (c :: replaceAux ['-', '-', '>'] ['-', '>'] fuel rest) = false := by
          by_cases hb : List.isPrefixOf ['-', '-', '>']
              (c :: replaceAux ['-', '-', '>'] ['-', '>'] fuel rest) = true
          · exfalso
            rw [List.isPrefixOf_iff_prefix] at hb
            obtain ⟨r, hr⟩ := hb
            simp only [List.cons_append, List.nil_append] at hr
            injection hr with hc hr'
            rcases replaceAux_head_pair fuel rest r hr'.symm with hcase | ⟨s, hs⟩
            · have : List.isPrefixOf ['-', '-', '-', '>'] (c :: rest) = true := by
                subst hc
                rw [List.isPrefixOf_iff_prefix] at hcase ⊢
                obtain ⟨w, hw⟩ := hcase
                exact ⟨w, by rw [← hw]; rfl⟩
              rw [containsSub_head h4] at this
              exact Bool.false_ne_true this
            · apply hp
              subst hc
              rw [hs]
              simp [List.isPrefixOf]
          · exact Bool.eq_false_iff.mpr hb
        unfold containsSub
        rw [hfirst, hR]
        rfl

/-! ## Claim C3: the non-negativity assertion -/

/-- C3: for every negative timestamp input `format_timestamp` fails with
its assertion (modelled as `none`), and for every non-negative input the
assertion does not fire and a string is produced. -/
theorem format_timestamp_assert_spec (num : Int) (inc : Bool) (marker : String) :
    (num < 0 → format_timestamp num inc marker = none) ∧
    (0 ≤ num → ∃ out, format_timestamp num inc marker = some out) := by
  constructor
  · intro h
    unfold format_timestamp
    rw [if_pos h]
  · intro h
    exact ⟨_, format_timestamp_eq num inc marker h⟩

/-- Witness for C3 at the concrete inputs `-5` (assertion fires) and
`100` (assertion passes). -/
theorem format_timestamp_assert_spec_witness :
    format_timestamp (-5) true "." = none ∧
    ∃ out, format_timestamp 100 true "." = some out :=
  ⟨(format_timestamp_assert_spec (-5) true ".").1 (by decide),
   (format_timestamp_assert_spec 100 true ".").2 (by decide)⟩

/-! ## Claim C4: hours suppression with `alwaysHours = false` -/

/-- C4: with `always_include_hours = false` the `"HH:"` field is omitted
exactly when the computed hours component is `0`: for `hours = 0` the
output is the `true`-variant's output minus its leading `"00:"`, and for
`hours ≠ 0` the two variants agree. -/
theorem format_timestamp_hours_suppression (num : Int) (marker : String) (h : 0 ≤ num) :
    (tsHours num.toNat = 0 →
      ∃ core : String,
        format_timestamp num false marker = some core ∧
        format_timestamp num true marker = some (String.mk ('0' :: '0' :: ':' :: core.data))) ∧
    (tsHours num.toNat ≠ 0 →
      format_timestamp num false marker = format_timestamp num true marker) := by
  rw [format_timestamp_eq num false marker h, format_timestamp_eq num true marker h]
  constructor
  · intro hH
    refine ⟨String.mk (formatTs num.toNat false marker), rfl, ?_⟩
    unfold formatTs
    rw [hH]
    simp
    rfl
  · intro hH
    unfold formatTs
    rw [if_pos (by simp [hH]), if_pos (by simp)]

/-- Witness for C4 at `num = 100` (hours component `0`, field omitted) and
`num = 360000` (hours component `1`, field included). -/
theorem format_timestamp_hours_suppression_witness :
    (∃ core : String,
        format_timestamp 100 false "." = some core ∧
        format_timestamp 100 true "." = some (String.mk ('0' :: '0' :: ':' :: core.data))) ∧
    format_timestamp 360000 false "." = format_timestamp 360000 true "." :=
  ⟨(format_timestamp_hours_suppression 100 "." (by decide)).1 (by decide),
   (format_timestamp_hours_suppression 360000 "." (by decide)).2 (by decide)⟩

/-! ## Claims C2 and C10: the rendered shape -/

/-- C2 counterexample: at `t = 36000000` centiseconds the hours component
is `100`, the output is `"100:00:00.000"`, and it does not match the
fixed `HH:MM:SS.mmm` shape (the claim asserts the shape for *every*
non-negative `t`). -/
theorem format_timestamp_shape_cex :
    format_timestamp 36000000 true "." = some "100:00:00.000" ∧
    matchesHHMMSSmmm '.' "100:00:00.000" = false := by decide

/-- C2 (amended: restricted to inputs whose hours component is below 100,
i.e. `t < 36000000`; for larger `t` the hours field widens, see the
counterexample): `format_timestamp t true "."` multiplies by 10 and
decomposes by the floor-division cascade (3 600 000; 60 000; 1 000), and
the output is the zero-padded components in `HH:MM:SS.mmm` shape; in
particular `t = 100` yields `"00:00:01.000"`. -/
theorem format_timestamp_shape (num : Int) (h0 : 0 ≤ num) (h1 : num < 36000000) :
    ∃ out : String,
      format_timestamp num true "." = some out ∧
      out.data = padNat 2 (tsHours num.toNat) ++ [':'] ++ padNat 2 (tsMinutes num.toNat)
        ++ [':'] ++ padNat 2 (tsSeconds num.toNat) ++ ['.'] ++ padNat 3 (tsMillis num.toNat) ∧
      matchesHHMMSSmmm '.' out = true := by
  have hH : tsHours num.toNat < 100 := tsHours_lt_of_lt _ (by omega)
  obtain ⟨a, b, hab, ha, hb⟩ := padNat_two_spec _ hH
  obtain ⟨c, d, hcd, hc, hd⟩ := padNat_two_spec _ (Nat.lt_trans (tsMinutes_lt num.toNat) (by omega))
  obtain ⟨e, f, hef, he, hf⟩ := padNat_two_spec _ (Nat.lt_trans (tsSeconds_lt num.toNat) (by omega))
  obtain ⟨g, i, j, hgij, hg, hi, hj⟩ := padNat_three_spec _ (tsMillis_lt num.toNat)
  refine ⟨String.mk (formatTs num.toNat true "."), format_timestamp_eq num true "." h0, ?_, ?_⟩
  · show formatTs num.toNat true "." = _
    unfold formatTs
    simp
  · unfold matchesHHMMSSmmm
    show (match formatTs num.toNat true "." with
      | _ => _ : Bool) = true
    unfold formatTs
    rw [if_pos (by simp), hab, hcd, hef, hgij]
    simp [ha, hb, hc, hd, he, hf, hg, hi, hj]

/-- Witness for C2 at `t = 100`: the claim's own example input. -/
theorem format_timestamp_shape_witness :
    ∃ out : String,
      format_timestamp 100 true "." = some out ∧
      out.data = padNat 2 (tsHours (100 : Int).toNat) ++ [':']
        ++ padNat 2 (tsMinutes (100 : Int).toNat)
        ++ [':'] ++ padNat 2 (tsSeconds (100 : Int).toNat) ++ ['.']
        ++ padNat 3 (tsMillis (100 : Int).toNat) ∧
      matchesHHMMSSmmm '.' out = true :=
  format_timestamp_shape 100 (by decide) (by decide)

/-- C10: the hours field is zero-padded to a minimum of two digits but is
never truncated: the output always carries `padNat 2 hours` whose length
is `max 2 (digits of hours)`, and when `hours ≥ 100` the field is the full
(≥ 3 digit) decimal of `hours`, so the output no longer matches the fixed
`HH:MM:SS.mmm` shape; `num = 36000000` yields `"100:00:00.000"`. -/
theorem format_timestamp_hours_not_truncated (num : Int) (h0 : 0 ≤ num) :
    (∃ out : String,
      format_timestamp num true "." = some out ∧
      out.data = padNat 2 (tsHours num.toNat) ++ [':'] ++ padNat 2 (tsMinutes num.toNat)
        ++ [':'] ++ padNat 2 (tsSeconds num.toNat) ++ ['.'] ++ padNat 3 (tsMillis num.toNat) ∧
      (padNat 2 (tsHours num.toNat)).length = max 2 (decRepr (tsHours num.toNat)).length ∧
      (100 ≤ tsHours num.toNat →
        padNat 2 (tsHours num.toNat) = decRepr (tsHours num.toNat) ∧
        3 ≤ (padNat 2 (tsHours num.toNat)).length ∧
        matchesHHMMSSmmm '.' out = false)) ∧
    format_timestamp 36000000 true "." = some "100:00:00.000" := by
  constructor
  · obtain ⟨c, d, hcd, _, _⟩ := padNat_two_spec _ (Nat.lt_trans (tsMinutes_lt num.toNat) (by omega))
    obtain ⟨e, f, hef, _, _⟩ := padNat_two_spec _ (Nat.lt_trans (tsSeconds_lt num.toNat) (by omega))
    obtain ⟨g, i, j, hgij, _, _, _⟩ := padNat_three_spec _ (tsMillis_lt num.toNat)
    refine ⟨String.mk (formatTs num.toNat true "."), format_timestamp_eq num true "." h0,
      ?_, padNat_length 2 _, ?_⟩
    · show formatTs num.toNat true "." = _
      unfold formatTs
      simp
    · intro hbig
      have h3 : 3 ≤ (decRepr (tsHours num.toNat)).length :=
        decRepr_length_ge_three _ hbig
      have hpad : padNat 2 (tsHours num.toNat) = decRepr (tsHours num.toNat) :=
        padNat_of_two_le _ (by omega)
      refine ⟨hpad, by rw [padNat_length]; omega, ?_⟩
      rw [Bool.eq_false_iff]
      intro hm
      have hlen := matchesHHMMSSmmm_length hm
      have : (formatTs num.toNat true ".").length = 12 := hlen
      unfold formatTs at this
      rw [if_pos (by simp), hcd, hef, hgij, hpad] at this
      simp at this
      omega
  · decide

/-- Witness for C10 at `num = 36000000` (hours component `100`). -/
theorem format_timestamp_hours_not_truncated_witness :
    (∃ out : String,
      format_timestamp 36000000 true "." = some out ∧
      out.data = padNat 2 (tsHours (36000000 : Int).toNat) ++ [':']
        ++ padNat 2 (tsMinutes (36000000 : Int).toNat)
        ++ [':'] ++ padNat 2 (tsSeconds (36000000 : Int).toNat) ++ ['.']
        ++ padNat 3 (tsMillis (36000000 : Int).toNat) ∧
      (padNat 2 (tsHours (36000000 : Int).toNat)).length
        = max 2 (decRepr (tsHours (36000000 : Int).toNat)).length ∧
      (100 ≤ tsHours (36000000 : Int).toNat →
        padNat 2 (tsHours (36000000 : Int).toNat) = decRepr (tsHours (36000000 : Int).toNat) ∧
        3 ≤ (padNat 2 (tsHours (36000000 : Int).toNat)).length ∧
        matchesHHMMSSmmm '.' out = false)) ∧
    format_timestamp 36000000 true "." = some "100:00:00.000" :=
  format_timestamp_hours_not_truncated 36000000 (by decide)

/-! ## String-level corollaries of the `replace` lemmas -/

theorem sanitize_of_no_occurrence (text : String)
    (h : containsSub "-->".data (rustTrim text).data = false) :
    sanitize text = rustTrim text := by
  unfold sanitize rustReplace
  rw [replaceAux_of_not_contains "-->".data "->".data _ _ h]

theorem sanitize_no_arrow_unless (text : String)
    (h : containsSub "--->".data (rustTrim text).data = false) :
    containsSub "-->".data (sanitize text).data = false := by
  unfold sanitize rustReplace
  exact replaceAux_no_arrow (rustTrim text).data.length (rustTrim text).data
    (Nat.le_refl _) h

/-! ## Claim C5: SRT indices -/

/-- C5: in `as_srt` output (defined whenever all timestamps are
non-negative) the numeric indices are exactly `1, 2, …, len(utterances)`
in order, one per utterance, each on its own line (followed by `"\n"`)
directly before that utterance's timestamp line (`srtBlock` starts with
the timestamp line). -/
theorem as_srt_indices (t : Transcript) (h : nonnegTimestamps t) :
    t.as_srt = some (strJoin (((List.range' 1 t.utterances.length).zip t.utterances).map
      (fun p => String.mk (decRepr p.1) ++ "\n" ++ srtBlock p.2))) :=
  as_srt_eq t h

/-- Witness for C5 on a concrete two-utterance transcript. -/
theorem as_srt_indices_witness :
    Transcript.as_srt ⟨0, [⟨0, 100, "a"⟩, ⟨100, 200, "b"⟩], none⟩
      = some (strJoin (((List.range' 1
          (Transcript.mk 0 [⟨0, 100, "a"⟩, ⟨100, 200, "b"⟩] none).utterances.length).zip
          (Transcript.mk 0 [⟨0, 100, "a"⟩, ⟨100, 200, "b"⟩] none).utterances).map
          (fun p => String.mk (decRepr p.1) ++ "\n" ++ srtBlock p.2))) :=
  as_srt_indices ⟨0, [⟨0, 100, "a"⟩, ⟨100, 200, "b"⟩], none⟩
    (by unfold nonnegTimestamps; decide)

/-! ## Claim C6: `"-->"` sanitisation -/

/-- C6 counterexample: for utterance text `"--->"` the single occurrence
of `"-->"` (at offset 1) is replaced, yet the replacement re-creates
`"-->"`: the rendered text line of both `as_srt` and `as_vtt` is exactly
`"-->"`, so a `"-->"` originating from utterance text does appear in both
renderings, contradicting the claim as stated. -/
theorem sanitize_cex :
    sanitize "--->" = "-->" ∧
    containsSub "-->".data (sanitize "--->").data = true ∧
    Transcript.as_srt ⟨0, [⟨0, 0, "--->"⟩], none⟩
      = some "1\n00:00:00,000 --> 00:00:00,000\n-->\n" ∧
    Transcript.as_vtt ⟨0, [⟨0, 0, "--->"⟩], none⟩
      = some "WEBVTT\n00:00:00.000 --> 00:00:00.000\n-->\n\n" := by decide

/-- C6 (amended): in both `as_vtt` and `as_srt` every utterance text is
rendered as `trim(text).replace("-->", "->")` — each occurrence of
`"-->"` is replaced left-to-right, non-overlapping, by `"->"` (this is
what `sanitize` inside `vttBlock`/`srtBlock` is) — and, provided the
trimmed text does not contain `"--->"`, no `"-->"` originating from the
utterance text appears in either rendering.  (When the text contains
`"--->"` the replacement itself can re-create `"-->"`; see the
counterexample.) -/
theorem sanitize_spec (t : Transcript) (h : nonnegTimestamps t) :
    t.as_vtt = some ("WEBVTT\n" ++ strJoin (t.utterances.map vttBlock)) ∧
    t.as_srt = some (strJoin (((List.range' 1 t.utterances.length).zip t.utterances).map
      (fun p => String.mk (decRepr p.1) ++ "\n" ++ srtBlock p.2))) ∧
    (∀ u : Utterance, sanitize u.text = rustReplace (rustTrim u.text) "-->" "->") ∧
    (∀ u ∈ t.utterances, containsSub "--->".data (rustTrim u.text).data = false →
      containsSub "-->".data (sanitize u.text).data = false) :=
  ⟨as_vtt_eq t h, as_srt_eq t h, fun _ => rfl,
   fun u _ hu => sanitize_no_arrow_unless u.text hu⟩

/-- Witness for C6 (amended) on a concrete transcript whose text contains
`"-->"` but not `"--->"`. -/
theorem sanitize_spec_witness :
    Transcript.as_vtt ⟨0, [⟨0, 100, " a --> b "⟩], none⟩
      = some ("WEBVTT\n" ++ strJoin ((Transcript.mk 0 [⟨0, 100, " a --> b "⟩] none).utterances.map vttBlock)) ∧
    Transcript.as_srt ⟨0, [⟨0, 100, " a --> b "⟩], none⟩
      = some (strJoin (((List.range' 1
          (Transcript.mk 0 [⟨0, 100, " a --> b "⟩] none).utterances.length).zip
          (Transcript.mk 0 [⟨0, 100, " a --> b "⟩] none).utterances).map
          (fun p => String.mk (decRepr p.1) ++ "\n" ++ srtBlock p.2))) ∧
    (∀ u : Utterance, sanitize u.text = rustReplace (rustTrim u.text) "-->" "->") ∧
    (∀ u ∈ (Transcript.mk 0 [⟨0, 100, " a --> b "⟩] none).utterances,
      containsSub "--->".data (rustTrim u.text).data = false →
      containsSub "-->".data (sanitize u.text).data = false) :=
  sanitize_spec ⟨0, [⟨0, 100, " a --> b "⟩], none⟩ (by unfold nonnegTimestamps; decide)

/-! ## Claim C9: trimming in the VTT/SRT renderings -/

/-- C9: `as_vtt` and `as_srt` emit each utterance's text with leading and
trailing whitespace trimmed — the same `rustTrim` that `as_text` applies —
not the raw text: the rendered text field is `sanitize text`, which is
`rustReplace (rustTrim text) "-->" "->"`, and whenever the trimmed text
contains no `"-->"` it is emitted exactly as the trimmed text that
`as_text` emits. -/
theorem renderings_use_trimmed_text (t : Transcript) (h : nonnegTimestamps t) :
    t.as_text = strJoin (t.utterances.map (fun u => rustTrim u.text ++ "\n")) ∧
    t.as_vtt = some ("WEBVTT\n" ++ strJoin (t.utterances.map vttBlock)) ∧
    t.as_srt = some (strJoin (((List.range' 1 t.utterances.length).zip t.utterances).map
      (fun p => String.mk (decRepr p.1) ++ "\n" ++ srtBlock p.2))) ∧
    (∀ u : Utterance, sanitize u.text = rustReplace (rustTrim u.text) "-->" "->") ∧
    (∀ u ∈ t.utterances, containsSub "-->".data (rustTrim u.text).data = false →
      sanitize u.text = rustTrim u.text) :=
  ⟨as_text_eq t, as_vtt_eq t h, as_srt_eq t h, fun _ => rfl,
   fun u _ hu => sanitize_of_no_occurrence u.text hu⟩

/-- Witness for C9 on a concrete transcript with surrounding whitespace in
the utterance text. -/
theorem renderings_use_trimmed_text_witness :
    Transcript.as_text ⟨0, [⟨0, 100, "  x  "⟩], none⟩
      = strJoin ((Transcript.mk 0 [⟨0, 100, "  x  "⟩] none).utterances.map
          (fun u => rustTrim u.text ++ "\n")) ∧
    Transcript.as_vtt ⟨0, [⟨0, 100, "  x  "⟩], none⟩
      = some ("WEBVTT\n" ++ strJoin ((Transcript.mk 0 [⟨0, 100, "  x  "⟩] none).utterances.map vttBlock)) ∧
    Transcript.as_srt ⟨0, [⟨0, 100, "  x  "⟩], none⟩
      = some (strJoin (((List.range' 1
          (Transcript.mk 0 [⟨0, 100, "  x  "⟩] none).utterances.length).zip
          (Transcript.mk 0 [⟨0, 100, "  x  "⟩] none).utterances).map
          (fun p => String.mk (decRepr p.1) ++ "\n" ++ srtBlock p.2))) ∧
    (∀ u : Utterance, sanitize u.text = rustReplace (rustTrim u.text) "-->" "->") ∧
    (∀ u ∈ (Transcript.mk 0 [⟨0, 100, "  x  "⟩] none).utterances,
      containsSub "-->".data (rustTrim u.text).data = false →
      sanitize u.text = rustTrim u.text) :=
  renderings_use_trimmed_text ⟨0, [⟨0, 100, "  x  "⟩], none⟩
    (by unfold nonnegTimestamps; decide)

/-! ## Claim C7: token filtering in `transcribe_pcm_s16le` -/

theorem pushTokens_eq (tokens : List RawToken) (words : List Utterance) :
    pushTokens words tokens
      = words ++ (tokens.filter (fun tk => !rustStartsWith tk.text "[_")).map
          (fun tk => ⟨tk.t0, tk.t1, tk.text⟩) := by
  induction tokens generalizing words with
  | nil => simp [pushTokens]
  | cons tk rest ih =>
    unfold pushTokens at ih ⊢
    rw [List.foldl_cons]
    by_cases hs : rustStartsWith tk.text "[_" = true
    · rw [if_pos hs, ih, List.filter_cons_of_neg (by simp [hs])]
    · rw [if_neg hs, ih, List.filter_cons_of_pos (by simp [Bool.eq_false_iff.mpr hs])]
      simp

theorem transcribeStep_true (acc : List Utterance × List Utterance) (s : RawSegment) :
    transcribeStep true acc s
      = (acc.1 ++ [⟨s.t0, s.t1, s.text⟩], pushTokens acc.2 s.tokens) := by
  unfold transcribeStep
  simp

theorem transcribe_fold_true (segments : List RawSegment)
    (acc₁ acc₂ : List Utterance) :
    segments.foldl (transcribeStep true) (acc₁, acc₂)
      = (acc₁ ++ segments.map (fun s => ⟨s.t0, s.t1, s.text⟩),
         acc₂ ++ ((segments.flatMap RawSegment.tokens).filter
           (fun tk => !rustStartsWith tk.text "[_")).map
           (fun tk => ⟨tk.t0, tk.t1, tk.text⟩)) := by
  induction segments generalizing acc₁ acc₂ with
  | nil => simp
  | cons s rest ih =>
    rw [List.foldl_cons, transcribeStep_true, ih, pushTokens_eq]
    simp [List.append_assoc]

/-- C7: when word timestamps are requested, `transcribe_pcm_s16le` appends
every token of every segment, in order, to `word_utterances`, except the
tokens whose text begins with `"[_"`, which never appear there; when word
timestamps are not requested, `word_utterances` is `None`. -/
theorem transcribe_word_filter (segments : List RawSegment) (elapsed : Nat) :
    (transcribe_pcm_s16le segments true elapsed).word_utterances
      = some (((segments.flatMap RawSegment.tokens).filter
          (fun tk => !rustStartsWith tk.text "[_")).map
          (fun tk => ⟨tk.t0, tk.t1, tk.text⟩)) ∧
    (∀ u ∈ ((transcribe_pcm_s16le segments true elapsed).word_utterances.getD []),
      rustStartsWith u.text "[_" = false) ∧
    (transcribe_pcm_s16le segments false elapsed).word_utterances = none := by
  have hmain : (transcribe_pcm_s16le segments true elapsed).word_utterances
      = some (((segments.flatMap RawSegment.tokens).filter
          (fun tk => !rustStartsWith tk.text "[_")).map
          (fun tk => ⟨tk.t0, tk.t1, tk.text⟩)) := by
    unfold transcribe_pcm_s16le
    rw [transcribe_fold_true]
    simp
  refine ⟨hmain, ?_, rfl⟩
  intro u hu
  rw [hmain] at hu
  simp only [Option.getD_some, List.mem_map, List.mem_filter] at hu
  obtain ⟨tk, ⟨_, htk⟩, rfl⟩ := hu
  simpa using htk

/-- Witness for C7 on a concrete raw output containing a `"[_"` token. -/
theorem transcribe_word_filter_witness :
    (transcribe_pcm_s16le [⟨"hi", 0, 50, [⟨"hi", 0, 20⟩, ⟨"[_BEG_]", 20, 20⟩]⟩] true 3).word_utterances
      = some (((([⟨"hi", 0, 50, [⟨"hi", 0, 20⟩, ⟨"[_BEG_]", 20, 20⟩]⟩] :
            List RawSegment).flatMap RawSegment.tokens).filter
          (fun tk => !rustStartsWith tk.text "[_")).map
          (fun tk => ⟨tk.t0, tk.t1, tk.text⟩)) ∧
    (∀ u ∈ ((transcribe_pcm_s16le [⟨"hi", 0, 50, [⟨"hi", 0, 20⟩, ⟨"[_BEG_]", 20, 20⟩]⟩]
        true 3).word_utterances.getD []),
      rustStartsWith u.text "[_" = false) ∧
    (transcribe_pcm_s16le [⟨"hi", 0, 50, [⟨"hi", 0, 20⟩, ⟨"[_BEG_]", 20, 20⟩]⟩]
        false 3).word_utterances = none :=
  transcribe_word_filter [⟨"hi", 0, 50, [⟨"hi", 0, 20⟩, ⟨"[_BEG_]", 20, 20⟩]⟩] 3

/-! ## Claim C8: `Content-Length` validation in `Model::download` -/

/-- C8: when the response declares `Content-Length` parsing to `n` but the
body stream yields a number of bytes different from `n`, `download` fails
(panics on `assert_eq!`) and in particular never returns the byte buffer;
when the `Content-Length` header is absent, `download` fails on
`assert!`. -/
theorem download_length_check (header : String) (n : Nat) (bytes : List Nat)
    (hparse : parseNat header = some n) (hmis : bytes.length ≠ n) :
    download (some header) (.ok bytes) = .panicked ∧
    (∀ bs : List Nat, download (some header) (.ok bytes) ≠ .ok bs) ∧
    (∀ body : Except Unit (List Nat), download none body = .panicked) := by
  have h1 : download (some header) (.ok bytes) = .panicked := by
    show (if bytes.length = (parseNat header).getD 0 then DownloadOutcome.ok bytes
      else DownloadOutcome.panicked) = DownloadOutcome.panicked
    rw [hparse]
    simp only [Option.getD_some]
    rw [if_neg hmis]
  exact ⟨h1, fun bs => by rw [h1]; exact fun hcontra => DownloadOutcome.noConfusion hcontra,
    fun body => rfl⟩

/-- Witness for C8: declared length 5, body of 3 bytes. -/
theorem download_length_check_witness :
    download (some "5") (.ok [1, 2, 3]) = .panicked ∧
    (∀ bs : List Nat, download (some "5") (.ok [1, 2, 3]) ≠ .ok bs) ∧
    (∀ body : Except Unit (List Nat), download none body = .panicked) :=
  download_length_check "5" 5 [1, 2, 3] (by decide) (by decide)

/-! ## Claim C1: `decode` on unrecognized input -/

/-- C1 (code bug): whenever the decoding backend does not recognize the
byte buffer (`Decoder::new` returns `Err`), `decode` panics on the
`.unwrap()` instead of returning an `AudioDecodeError`; moreover `decode`
never returns `ModelError::AudioDecodeError` for any input whatsoever —
the variant is never constructed in the code. -/
theorem decode_panics_on_unrecognized {σ ω : Type}
    (decoderNew : List Nat → Option σ) (pipeline : σ → List Int)
    (convert : List Int → Except Unit ω) (bytes : List Nat)
    (h : decoderNew bytes = none) :
    decode decoderNew pipeline convert bytes = .panicked ∧
    (∀ bytes' : List Nat,
      decode decoderNew pipeline convert bytes' ≠ .err .audioDecodeError) := by
  constructor
  · unfold decode
    rw [h]
  · intro bytes'
    cases hd : decoderNew bytes' with
    | none => simp [decode, hd]
    | some source =>
      cases hc : convert (pipeline source) with
      | error e => simp [decode, hd, hc]
      | ok out => simp [decode, hd, hc]

/-- Witness for C1 at the concrete empty byte buffer with a backend that
rejects it. -/
theorem decode_panics_on_unrecognized_witness :
    decode (fun _ : List Nat => (none : Option Unit)) (fun _ => [])
      (fun _ => Except.ok ()) [] = .panicked ∧
    (∀ bytes' : List Nat,
      decode (fun _ : List Nat => (none : Option Unit)) (fun _ => [])
        (fun _ => Except.ok ()) bytes' ≠ .err .audioDecodeError) :=
  decode_panics_on_unrecognized (fun _ => none) (fun _ => []) (fun _ => Except.ok ()) [] rfl

end Mutter
